import Mathlib

/-!
Verification of the Polygon_Flashwich opportunity-detection and execution
engine.  The Rust source is shallowly embedded: U256 arithmetic becomes
Nat with explicit overflow checks (the `uint` crate panics on overflow,
modelled as `Except.error`), fallible functions return `Except String`,
and on-chain state (pool reserves, the token-pair adjacency map) is
passed explicitly.  Addresses are modelled as natural numbers.
-/

namespace Flashwich

/-- Addresses (tokens, pools, routers) modelled as their 160-bit value. -/
abbrev Address := Nat

/-- Exclusive upper bound of the 256-bit unsigned integer type. -/
def U256_LIMIT : Nat := 2 ^ 256

/-- Loop body of `simulate_trade` / `simulate_trade_with_amount`
(src/src/lib.rs lines 322 and 362): the single-hop quote
`(current_amount * reserve_out) / (reserve_in + current_amount)`.
The `uint` crate's U256 operations panic on overflow and on division by
zero, modelled as errors, in the source's evaluation order: the
multiplication first, then the addition, then the truncating division. -/
def hop_quote (reserves : Nat × Nat) (amount : Nat) : Except String Nat :=
  if amount * reserves.2 < U256_LIMIT then
    if reserves.1 + amount < U256_LIMIT then
      if reserves.1 + amount = 0 then .error "panic: division by zero"
      else .ok (amount * reserves.2 / (reserves.1 + amount))
    else .error "panic: U256 add overflow"
  else .error "panic: U256 mul overflow"

/-- The hop loop of `simulate_trade_with_amount` (src/src/lib.rs lines 360-363):
`for i in 0..path.len()-1` folds `hop_quote` over the pools `path[0..len-1]`,
threading `current_amount`.  `res` is the abstraction of `get_reserves`. -/
def chain_hops (res : Address → Nat × Nat) : List Address → Nat → Except String Nat
  | [], amount => .ok amount
  | p :: ps, amount =>
    match hop_quote (res p) amount with
    | .error e => .error e
    | .ok next => chain_hops res ps next

/-- The hop loop of `simulate_trade` (src/src/lib.rs lines 320-323); the source
duplicates the loop of `simulate_trade_with_amount` verbatim, so the embedding
keeps two separate recursions. -/
def chain_hops_fixed (res : Address → Nat × Nat) : List Address → Nat → Except String Nat
  | [], amount => .ok amount
  | p :: ps, amount =>
    match hop_quote (res p) amount with
    | .error e => .error e
    | .ok next => chain_hops_fixed res ps next

/-- One native unit, 10^18 wei: the fixed trade size of `simulate_trade`. -/
def ONE_MATIC_WEI : Nat := 1000000000000000000

/-- Embeds `MevBot::simulate_trade` (src/src/lib.rs lines 316-330): chain the
hops over `path[0..len-1]` starting from 1 MATIC, then return
`current - amount` when `current > amount`, else zero.  On an empty path the
source's `path.len() - 1` underflows and the indexing panics, modelled as an
error. -/
def simulate_trade (res : Address → Nat × Nat) (path : List Address) : Except String Nat :=
  if path.isEmpty then .error "panic: empty path"
  else
    match chain_hops_fixed res path.dropLast ONE_MATIC_WEI with
    | .error e => .error e
    | .ok out => .ok (if ONE_MATIC_WEI < out then out - ONE_MATIC_WEI else 0)

/-- Embeds `MevBot::simulate_trade_with_amount` (src/src/lib.rs lines 353-370):
same loop with a caller-supplied input amount. -/
def simulate_trade_with_amount (res : Address → Nat × Nat) (path : List Address)
    (amount : Nat) : Except String Nat :=
  if path.isEmpty then .error "panic: empty path"
  else
    match chain_hops res path.dropLast amount with
    | .error e => .error e
    | .ok out => .ok (if amount < out then out - amount else 0)

/-- Inner loop of `MevBot::get_all_routes` (src/src/lib.rs lines 299-311) for a
single `pair` drawn from `token_pairs[token_in]`.  The source builds
`route = vec![token_in, pair]` and, when `pair != token_out`, iterates over
`token_pairs[pair]`, pushing `next_pair` onto the SAME `route` vector and
cloning it into the result each time `next_pair == token_out`; the route is
never reset between matches, which the fold state reproduces. -/
def routes_for_pair (tp : Address → Option (List Address))
    (token_in token_out pair : Address) : List (List Address) :=
  if pair = token_out then [[token_in, pair]]
  else
    match tp pair with
    | none => []
    | some next_pairs =>
      (next_pairs.foldl
        (fun st np =>
          if np = token_out then (st.1 ++ [np], st.2 ++ [st.1 ++ [np]]) else st)
        (([token_in, pair] : List Address), ([] : List (List Address)))).2

/-- Embeds `MevBot::get_all_routes` (src/src/lib.rs lines 290-314): looks up
`token_pairs[token_in]` (error when absent) and concatenates the routes
produced for each pair in list order.  `tp` abstracts the `token_pairs` map. -/
def get_all_routes (tp : Address → Option (List Address))
    (token_in token_out : Address) : Except String (List (List Address)) :=
  match tp token_in with
  | none => .error "No pairs found for input token"
  | some pairs =>
    .ok (pairs.foldl (fun acc pair => acc ++ routes_for_pair tp token_in token_out pair) [])

/-- Selection loop of `MevBot::find_optimal_route` (src/src/lib.rs lines
273-279): state is `(best_route, best_profit)`, initialised to `([], 0)`;
a route replaces the best only on STRICTLY greater profit. -/
def select_best (res : Address → Nat × Nat) :
    List (List Address) → List Address × Nat → Except String (List Address × Nat)
  | [], st => .ok st
  | route :: rest, st =>
    match simulate_trade res route with
    | .error e => .error e
    | .ok profit => select_best res rest (if st.2 < profit then (route, profit) else st)

/-- Embeds `MevBot::find_optimal_route` (src/src/lib.rs lines 263-282). -/
def find_optimal_route (tp : Address → Option (List Address)) (res : Address → Nat × Nat)
    (token_in token_out : Address) : Except String (List Address) :=
  match get_all_routes tp token_in token_out with
  | .error e => .error e
  | .ok routes =>
    match select_best res routes ([], 0) with
    | .error e => .error e
    | .ok st => .ok st.1

/-- Embeds `FastLaneClient::validate_bundle_params`
(src/src/fastlane_integration.rs lines 234-242). -/
def validate_bundle_params (target_block current_block : Nat) : Except String Unit :=
  if target_block ≤ current_block then .error "Target block must be in the future"
  else if current_block + 5 < target_block then .error "Target block too far in the future"
  else .ok ()

/-- Embeds the `BundleStatus` enumeration
(src/src/fastlane_integration.rs lines 85-91). -/
inductive BundleStatus where
  | Unknown
  | Pending
  | Included
  | Replaced
deriving DecidableEq, Repr

/-- A status is terminal when it is `Included` or `Replaced` (spec section 3). -/
def bundle_status_terminal : BundleStatus → Bool
  | .Included => true
  | .Replaced => true
  | _ => false

/-- Modelled from the spec: the repository declares `BundleStatus`
(src/src/fastlane_integration.rs lines 85-91) but implements no
`status(handle)` query, so the transition relation between successive status
queries on one bundle handle is taken from spec section 3:
`Unknown -> Pending -> (Included | Replaced)`, a query may observe the same
state again, and no transition leaves a terminal state. -/
def bundle_status_step : BundleStatus → BundleStatus → Bool
  | .Unknown, .Unknown => true
  | .Unknown, .Pending => true
  | .Pending, .Pending => true
  | .Pending, .Included => true
  | .Pending, .Replaced => true
  | .Included, .Included => true
  | .Replaced, .Replaced => true
  | _, _ => false

/-- Embeds `ArbitrageOpportunity` (src/src/simulation_engine.rs lines 297-309). -/
structure ArbitrageOpportunity where
  token0 : Address
  token1 : Address
  amount0 : Nat
  amount1 : Nat
  fee : Nat
  path : List Address
  amounts : List Nat
  routers : List Address
  expected_profit : Nat
  optimal_path : List Address
deriving Repr

/-- WMATIC address constant (src/src/simulation_engine.rs, `WETH`). -/
def WETH_ADDR : Address := 0x0d500B1d8E8eF31E21C99d1Db9A6444d3ADf1270

/-- USDC address constant (src/src/simulation_engine.rs, `USDC`). -/
def USDC_ADDR : Address := 0x2791Bca1f2de4661ED88A30C99A7a9449Aa84174

/-- QuickSwap router address (src/src/routers, `QuickswapRouter::new`). -/
def QUICKSWAP_ROUTER_ADDR : Address := 0xa5E0829CaCEd8fFDD4De3c43696c57F7D7A678ff

/-- SushiSwap router address (src/src/routers/sushiswap.rs, `SUSHISWAP_ROUTER`). -/
def SUSHISWAP_ROUTER_ADDR : Address := 0x1b02dA8Cb0d097eB8D57A175b88c7D8b47997506

/-- Minimum perceived profit in wei (src/src/lib.rs line 54, `MINIMUM_PROFIT_WEI`). -/
def MINIMUM_PROFIT_WEI : Nat := 50000000000000000

/-- The hard-coded opportunity built by `simulate_arbitrage_opportunity`
(src/src/simulation_engine.rs lines 343-354). -/
def mock_opportunity : ArbitrageOpportunity :=
  { token0 := WETH_ADDR
    token1 := USDC_ADDR
    amount0 := 100
    amount1 := 120
    fee := 3000
    path := [WETH_ADDR, USDC_ADDR]
    amounts := [100, 120]
    routers := [QUICKSWAP_ROUTER_ADDR, SUSHISWAP_ROUTER_ADDR]
    expected_profit := 0
    optimal_path := [WETH_ADDR, USDC_ADDR] }

/-- Embeds `AdvancedSimulationEngine::simulate_arbitrage_opportunity`
(src/src/simulation_engine.rs lines 335-359): the only transaction field
consulted is `tx.input` (its byte sequence, modelled as a list); when its
length exceeds 100 the hard-coded mock opportunity is returned, otherwise
none. -/
def simulate_arbitrage_opportunity (tx_input : List Nat) : Option ArbitrageOpportunity :=
  if 100 < tx_input.length then some mock_opportunity else none

/-- Opportunity record as consumed by `execute_multi_leg_arbitrage` in
src/src/main.rs, whose accessors `fee.unwrap_or(3000)` and
`expected_profit.unwrap_or(zero)` treat those two fields as optional. -/
structure MainArbitrageOpportunity where
  token0 : Address
  token1 : Address
  amount0 : Nat
  amount1 : Nat
  fee : Option Nat
  path : List Address
  amounts : List Nat
  routers : List Address
  expected_profit : Option Nat
deriving Repr

/-- The contract call assembled by `execute_multi_leg_arbitrage`
(src/src/main.rs lines 128-150): the `FlashLoanContractArbitrageOpportunity`
payload, the targeted block, and the attached transaction value (the bid). -/
structure ContractCallRequest where
  token0 : Address
  token1 : Address
  amount0 : Nat
  amount1 : Nat
  fee : Nat
  path : List Address
  amounts : List Nat
  routers : List Address
  target_block : Nat
  value : Nat
deriving Repr

/-- Embeds `FlashLoanArbitrage::execute_multi_leg_arbitrage`
(src/src/main.rs lines 104-153): bail out when `opportunity.routers` is
empty, target `current_block + 1`, default the fee to 3000, and attach
`expected_profit.unwrap_or(zero)` as the transaction value (the FastLane
bid).  Network effects (bundle creation, sending) are outside the
embedding; the function returns the request it would send. -/
def execute_multi_leg_arbitrage (opp : MainArbitrageOpportunity)
    (current_block : Nat) : Except String ContractCallRequest :=
  if opp.routers = [] then .error "No arbitrage routes found"
  else
    .ok { token0 := opp.token0
          token1 := opp.token1
          amount0 := opp.amount0
          amount1 := opp.amount1
          fee := opp.fee.getD 3000
          path := opp.path
          amounts := opp.amounts
          routers := opp.routers
          target_block := current_block + 1
          value := opp.expected_profit.getD 0 }

/-- Modelled from the claim wording (spec section 4.1): the constant-product
quote with a proportional 0.3 percent fee first deducted from `amount_in`
(`amount_in * 997 / 1000`), truncating division throughout.  Used only to
compare the claimed formula against the code's quote. -/
def quote_with_fee_claimed (amount_in reserve_in reserve_out : Nat) : Nat :=
  let after_fee := amount_in * 997 / 1000
  after_fee * reserve_out / (reserve_in + after_fee)

/-! Concrete inputs used by witnesses, counterexamples and failing-input
evaluations. -/

/-- Reserve map assigning every pool the reserves (1000, 1000). -/
def res_flat : Address → Nat × Nat := fun _ => (1000, 1000)

/-- Token-pair map with a duplicated adjacency entry, as `update_token_pairs`
(src/src/lib.rs lines 169-192) produces by pushing the same pool address once
per factory-loop iteration: token 1 lists pool 3, and 3 lists pool 2 twice. -/
def tp_dup : Address → Option (List Address) :=
  fun t => if t = 1 then some [3] else if t = 3 then some [2, 2] else none

/-- Token-pair map for the tie-break scenario: from token 1 one can reach
token 2 directly (single hop) or through 3 (two hops). -/
def tp_tie : Address → Option (List Address) :=
  fun t => if t = 1 then some [3, 2] else if t = 3 then some [2] else none

/-- Reserves making the one-hop and two-hop routes of `tp_tie` tie at a
profit of exactly 1 MATIC on a 1 MATIC input. -/
def res_tie : Address → Nat × Nat := fun t =>
  if t = 1 then (1000000000000000000, 4000000000000000000)
  else if t = 3 then (1000000000000000000, 3000000000000000000)
  else (1, 1)

/-- Opportunity with one router and an expected profit of 1 native unit. -/
def opp_main_ex : MainArbitrageOpportunity :=
  { token0 := WETH_ADDR
    token1 := USDC_ADDR
    amount0 := 100
    amount1 := 0
    fee := none
    path := [WETH_ADDR, USDC_ADDR]
    amounts := [100]
    routers := [QUICKSWAP_ROUTER_ADDR]
    expected_profit := some 1000000000000000000 }

/-- The contract call `execute_multi_leg_arbitrage` assembles from
`opp_main_ex` at current block 100. -/
def req_main_ex : ContractCallRequest :=
  { token0 := WETH_ADDR
    token1 := USDC_ADDR
    amount0 := 100
    amount1 := 0
    fee := 3000
    path := [WETH_ADDR, USDC_ADDR]
    amounts := [100]
    routers := [QUICKSWAP_ROUTER_ADDR]
    target_block := 101
    value := 1000000000000000000 }

/-- A status trace that is `Pending` at query 0 and `Included` afterwards. -/
def trace_w : Nat → BundleStatus := fun n => if n = 0 then .Pending else .Included

/-! Theorems settling the claims. -/

/-- Claim C1, counterexample: at `amount_in = 1000`, `reserve_in = 1000`,
`reserve_out = 1000` the code's single-hop quote (the hop of
`simulate_trade_with_amount`) returns 500, while the claimed formula with a
proportional 0.3 percent fee first deducted from `amount_in` yields 499: the
code deducts no fee, so the claim as stated is false. -/
theorem claim_C1_counterexample :
    chain_hops res_flat [0] 1000 = .ok 500 ∧
    quote_with_fee_claimed 1000 1000 1000 = 499 ∧
    (500 : Nat) ≠ 499 :=
  ⟨rfl, rfl, by decide⟩

/-- Claim C1 (amended): for `reserve_in > 0`, `reserve_out > 0` and any
`amount_in`, whenever the 256-bit multiplication and addition do not
overflow, the single-hop quote computes exactly
`amount_in * reserve_out / (reserve_in + amount_in)` with truncating
division and NO fee deduction, and `simulate_trade_with_amount` on the
corresponding one-hop path returns that quote with the input subtracted,
saturated at zero. -/
theorem claim_C1_single_hop_quote_no_fee
    (res : Address → Nat × Nat) (t0 t1 : Address) (a r_in r_out : Nat)
    (hres : res t0 = (r_in, r_out)) (hin : 0 < r_in) (hout : 0 < r_out)
    (hmul : a * r_out < U256_LIMIT) (hadd : r_in + a < U256_LIMIT) :
    chain_hops res [t0] a = .ok (a * r_out / (r_in + a)) ∧
    simulate_trade_with_amount res [t0, t1] a =
      .ok (if a < a * r_out / (r_in + a) then a * r_out / (r_in + a) - a else 0) := by
  have hq : hop_quote (res t0) a = .ok (a * r_out / (r_in + a)) := by
    rw [hres]
    unfold hop_quote
    have hne : ¬ (r_in + a = 0) := by omega
    simp [hmul, hadd, hne]
  have h1 : chain_hops res [t0] a = .ok (a * r_out / (r_in + a)) := by
    simp [chain_hops, hq]
  refine ⟨h1, ?_⟩
  unfold simulate_trade_with_amount
  have hdrop : ([t0, t1] : List Address).dropLast = [t0] := rfl
  have hempty : ([t0, t1] : List Address).isEmpty = false := rfl
  rw [hempty, hdrop, h1]
  rfl

/-- Claim C1 witness: the amended statement instantiated at the concrete
reserves (1000, 1000) and input 1000. -/
theorem claim_C1_witness :
    chain_hops res_flat [0] 1000 = .ok (1000 * 1000 / (1000 + 1000)) ∧
    simulate_trade_with_amount res_flat [0, 1] 1000 =
      .ok (if 1000 < 1000 * 1000 / (1000 + 1000)
           then 1000 * 1000 / (1000 + 1000) - 1000 else 0) :=
  claim_C1_single_hop_quote_no_fee res_flat 0 1 1000 1000 1000 rfl
    (by decide) (by decide) (by decide) (by decide)

/-- Claim C2: the spec requires an `ArbitrageOpportunity` to exist only when
its expected profit reaches `MINIMUM_PROFIT_WEI`; the code's
`simulate_arbitrage_opportunity` is a stub that returns a hard-coded
opportunity with `expected_profit = 0` for any transaction whose input
exceeds 100 bytes, violating the claim (and the spec's own design note calls
this placeholder code).  Evaluation at a 101-byte input exhibits it. -/
theorem claim_C2_stub_returns_below_threshold :
    simulate_arbitrage_opportunity (List.replicate 101 0) = some mock_opportunity ∧
    mock_opportunity.expected_profit = 0 ∧
    mock_opportunity.expected_profit < MINIMUM_PROFIT_WEI ∧
    simulate_arbitrage_opportunity (List.replicate 100 0) = none :=
  ⟨rfl, rfl, by decide, rfl⟩

/-- Claim C3, counterexample: for an opportunity with
`expected_profit = 1_000_000_000_000_000_000` the value attached to the
submission by `execute_multi_leg_arbitrage` is the full expected profit,
not the claimed 80 percent (`800_000_000_000_000_000`). -/
theorem claim_C3_counterexample :
    Except.map ContractCallRequest.value (execute_multi_leg_arbitrage opp_main_ex 100) =
      .ok 1000000000000000000 ∧
    (1000000000000000000 : Nat) ≠ 800000000000000000 :=
  ⟨rfl, by decide⟩

/-- Claim C3 (amended): the bid attached to the submission (the
transaction's value) equals the opportunity's `expected_profit` itself
(zero when absent); no 80 percent scaling and no minimum-bid floor is
applied.  The target block is `current_block + 1`. -/
theorem claim_C3_bid_equals_expected_profit
    (opp : MainArbitrageOpportunity) (current_block : Nat) (req : ContractCallRequest)
    (h : execute_multi_leg_arbitrage opp current_block = .ok req) :
    req.value = opp.expected_profit.getD 0 ∧ req.target_block = current_block + 1 := by
  unfold execute_multi_leg_arbitrage at h
  split at h
  · exact absurd h (by simp)
  · cases h
    exact ⟨rfl, rfl⟩

/-- Claim C3 witness: the amended statement instantiated at `opp_main_ex`
and current block 100. -/
theorem claim_C3_witness :
    req_main_ex.value = opp_main_ex.expected_profit.getD 0 ∧
    req_main_ex.target_block = 100 + 1 :=
  claim_C3_bid_equals_expected_profit opp_main_ex 100 req_main_ex rfl

/-- Claim C4: the spec requires that no returned path contains the same pool
identifier twice, but `get_all_routes` never resets the `route` vector
between matches of its inner loop; with the duplicated adjacency list of
`tp_dup` (as `update_token_pairs` produces) the second returned path
`[1, 3, 2, 2]` lists pool 2 twice. -/
theorem claim_C4_route_repeats_pool :
    get_all_routes tp_dup 1 2 = .ok [[1, 3, 2], [1, 3, 2, 2]] ∧
    ([1, 3, 2, 2] : List Address).count 2 = 2 :=
  ⟨rfl, rfl⟩

/-- Claim C5: within the 64-bit block-number range, bundle validation
accepts a target block exactly when it is strictly greater than the latest
known block and at most 5 blocks ahead, and returns an error for every
other target block. -/
theorem claim_C5_validate_bundle_params_iff
    (target current : Nat) (ht : target < 2 ^ 64) (hc : current + 5 < 2 ^ 64) :
    (validate_bundle_params target current = .ok () ↔
      current < target ∧ target ≤ current + 5) ∧
    (¬(current < target ∧ target ≤ current + 5) →
      ∃ msg, validate_bundle_params target current = .error msg) := by
  constructor
  · unfold validate_bundle_params
    split_ifs with h1 h2 <;> simp <;> omega
  · intro hnot
    unfold validate_bundle_params
    split_ifs with h1 h2
    · exact ⟨_, rfl⟩
    · exact ⟨_, rfl⟩
    · exact absurd ⟨by omega, by omega⟩ hnot

/-- Claim C5 witness: the validation characterisation instantiated at
target block 101 and latest block 100. -/
theorem claim_C5_witness :
    (validate_bundle_params 101 100 = .ok () ↔ 100 < 101 ∧ 101 ≤ 100 + 5) ∧
    (¬(100 < 101 ∧ 101 ≤ 100 + 5) →
      ∃ msg, validate_bundle_params 101 100 = .error msg) :=
  claim_C5_validate_bundle_params_iff 101 100 (by decide) (by decide)

/-- Once terminal, a status step cannot leave the state. -/
lemma bundle_status_terminal_step_fixes :
    ∀ s t : BundleStatus, bundle_status_terminal s = true →
      bundle_status_step s t = true → t = s := by
  intro s t hs hst
  cases s <;> cases t <;> simp_all [bundle_status_terminal, bundle_status_step]

/-- Claim C9: in the bundle status machine, `Included` and `Replaced` are
terminal: along any trace of status queries whose consecutive results are
related by the spec's transition relation, once query `i` returns a
terminal status every later query `j` returns the same value. -/
theorem claim_C9_terminal_states_absorb
    (trace : Nat → BundleStatus)
    (hstep : ∀ n, bundle_status_step (trace n) (trace (n + 1)) = true)
    (i j : Nat) (hij : i ≤ j) (hterm : bundle_status_terminal (trace i) = true) :
    trace j = trace i := by
  induction j, hij using Nat.le_induction with
  | base => rfl
  | succ k hk ih =>
    have h2 : bundle_status_step (trace k) (trace (k + 1)) = true := hstep k
    rw [ih] at h2
    exact bundle_status_terminal_step_fixes _ _ hterm h2

/-- Claim C9 witness: the trace that is `Pending` at query 0 and `Included`
from query 1 on satisfies the step relation, and the theorem yields that
query 2 repeats the terminal value of query 1. -/
theorem claim_C9_witness : trace_w 2 = trace_w 1 :=
  claim_C9_terminal_states_absorb trace_w
    (fun n => by cases n <;> rfl) 1 2 (by decide) rfl

/-- The two verbatim-duplicated hop loops of the source compute the same
chained amount. -/
lemma chain_hops_fixed_eq (res : Address → Nat × Nat) :
    ∀ (l : List Address) (a : Nat), chain_hops_fixed res l a = chain_hops res l a := by
  intro l
  induction l with
  | nil => intro a; rfl
  | cons p ps ih =>
    intro a
    cases h : hop_quote (res p) a with
    | error e => simp [chain_hops_fixed, chain_hops, h]
    | ok v =>
      simp only [chain_hops_fixed, chain_hops, h]
      exact ih v

/-- Claim C10: `simulate_trade` returns exactly what
`simulate_trade_with_amount` returns when called with one native unit
(10^18 wei), for every reserve map and path. -/
theorem claim_C10_simulate_trade_refines
    (res : Address → Nat × Nat) (path : List Address) :
    simulate_trade res path = simulate_trade_with_amount res path 1000000000000000000 := by
  unfold simulate_trade simulate_trade_with_amount ONE_MATIC_WEI
  rw [chain_hops_fixed_eq]

/-- Claim C7: whenever the chained per-hop quotes of a non-empty path
succeed with final output `out`, the path profit returned by
`simulate_trade_with_amount` is `out - amount` as truncated (saturating)
subtraction: over the integers it equals `max (out - amount) 0`, so it is
never negative and is exactly zero whenever the chained output does not
exceed the input. -/
theorem claim_C7_profit_saturated_at_zero
    (res : Address → Nat × Nat) (path : List Address) (amount out : Nat)
    (hpath : path ≠ [])
    (hchain : chain_hops res path.dropLast amount = .ok out) :
    simulate_trade_with_amount res path amount = .ok (out - amount) ∧
    ((out - amount : Nat) : Int) = max ((out : Int) - (amount : Int)) 0 ∧
    (out ≤ amount → simulate_trade_with_amount res path amount = .ok 0) := by
  have hne : path.isEmpty = false := by
    cases path with
    | nil => exact absurd rfl hpath
    | cons a l => rfl
  have hmain : simulate_trade_with_amount res path amount = .ok (out - amount) := by
    unfold simulate_trade_with_amount
    rw [hne, hchain]
    simp only [Bool.false_eq_true, if_false]
    congr 1
    by_cases h : amount < out
    · rw [if_pos h]
    · rw [if_neg h]
      omega
  refine ⟨hmain, ?_, ?_⟩
  · omega
  · intro h
    rw [hmain]
    congr 1
    omega

/-- Claim C7 witness: on the one-hop path `[1, 2]` with reserves (5, 20)
and input 5 the chained output is 10 and the profit is 5. -/
theorem claim_C7_witness :
    simulate_trade_with_amount (fun _ => (5, 20)) [1, 2] 5 = .ok (10 - 5) ∧
    ((10 - 5 : Nat) : Int) = max ((10 : Int) - (5 : Int)) 0 ∧
    (10 ≤ 5 → simulate_trade_with_amount (fun _ => (5, 20)) [1, 2] 5 = .ok 0) :=
  claim_C7_profit_saturated_at_zero (fun _ => (5, 20)) [1, 2] 5 10 (by decide) rfl

/-- Inversion for a successful single-hop quote. -/
lemma hop_quote_ok (r_in r_out a v : Nat)
    (h : hop_quote (r_in, r_out) a = .ok v) :
    v = a * r_out / (r_in + a) ∧ a * r_out < U256_LIMIT ∧
      r_in + a < U256_LIMIT ∧ 0 < r_in + a := by
  unfold hop_quote at h
  dsimp only at h
  split_ifs at h with h1 h2 h3
  all_goals
    first
      | (injection h with hv; exact ⟨hv.symm, h1, h2, by omega⟩)
      | injection h

/-- The quote value is monotone in the input amount: cross-multiplying,
`a * (r_in + b) ≤ b * (r_in + a)` for `a ≤ b`. -/
lemma quote_div_mono (r_in r_out a b : Nat) (hab : a ≤ b) (hb : 0 < r_in + b) :
    a * r_out / (r_in + a) ≤ b * r_out / (r_in + b) := by
  rcases Nat.eq_zero_or_pos a with rfl | hpos
  · simp
  · rw [Nat.le_div_iff_mul_le hb]
    have key : a * r_out / (r_in + a) * (r_in + a) ≤ a * r_out :=
      Nat.div_mul_le_self _ _
    have step1 : a * r_out / (r_in + a) * (r_in + b) * a ≤ b * r_out * a := by
      calc a * r_out / (r_in + a) * (r_in + b) * a
          = a * r_out / (r_in + a) * (r_in * a + b * a) := by ring
        _ ≤ a * r_out / (r_in + a) * (r_in * b + a * b) := by
            have h1 : r_in * a ≤ r_in * b := Nat.mul_le_mul_left r_in hab
            have h2 : b * a = a * b := Nat.mul_comm b a
            exact Nat.mul_le_mul_left _ (Nat.add_le_add h1 (Nat.le_of_eq h2))
        _ = a * r_out / (r_in + a) * (r_in + a) * b := by ring
        _ ≤ a * r_out * b := Nat.mul_le_mul_right _ key
        _ = b * r_out * a := by ring
    exact Nat.le_of_mul_le_mul_right step1 hpos

/-- The quote value never reaches the output reserve. -/
lemma quote_lt_reserve_out (r_in r_out a : Nat) (hin : 0 < r_in) (hout : 0 < r_out) :
    a * r_out / (r_in + a) < r_out := by
  rw [Nat.div_lt_iff_lt_mul (by omega : 0 < r_in + a)]
  have h1 : 0 < r_in * r_out := Nat.mul_pos hin hout
  calc a * r_out < r_in * r_out + a * r_out := Nat.lt_add_of_pos_left h1
    _ = r_out * (r_in + a) := by ring

/-- Claim C6: for positive reserves the single-hop quote is monotonically
non-decreasing in the input amount (whenever both evaluations return a
value, i.e. do not panic), and every returned value is strictly less than
`reserve_out`. -/
theorem claim_C6_quote_monotone_and_bounded
    (r_in r_out : Nat) (hin : 0 < r_in) (hout : 0 < r_out) :
    (∀ a b va vb, a ≤ b → hop_quote (r_in, r_out) a = .ok va →
      hop_quote (r_in, r_out) b = .ok vb → va ≤ vb) ∧
    (∀ a v, hop_quote (r_in, r_out) a = .ok v → v < r_out) := by
  constructor
  · intro a b va vb hab ha hb
    obtain ⟨hva, -, -, -⟩ := hop_quote_ok _ _ _ _ ha
    obtain ⟨hvb, -, -, hposb⟩ := hop_quote_ok _ _ _ _ hb
    rw [hva, hvb]
    exact quote_div_mono r_in r_out a b hab hposb
  · intro a v h
    obtain ⟨hv, -, -, -⟩ := hop_quote_ok _ _ _ _ h
    rw [hv]
    exact quote_lt_reserve_out r_in r_out a hin hout

/-- Claim C6 witness: with reserves (1000, 1000), the quote at input 1000
is 500 and at input 3000 is 750: 500 ≤ 750 and 500 < 1000. -/
theorem claim_C6_witness : (500 : Nat) ≤ 750 ∧ (500 : Nat) < 1000 :=
  ⟨(claim_C6_quote_monotone_and_bounded 1000 1000 (by decide) (by decide)).1
      1000 3000 500 750 (by decide) rfl rfl,
   (claim_C6_quote_monotone_and_bounded 1000 1000 (by decide) (by decide)).2
      1000 500 rfl⟩

/-- A run of the selection loop over routes whose profits never strictly
exceed the current best leaves the state unchanged. -/
lemma select_best_no_improvement (res : Address → Nat × Nat) :
    ∀ (routes : List (List Address)) (st : List Address × Nat),
      (∀ r, r ∈ routes → ∃ p, simulate_trade res r = .ok p ∧ p ≤ st.2) →
      select_best res routes st = .ok st := by
  intro routes
  induction routes with
  | nil => intro st h; rfl
  | cons r rest ih =>
    intro st h
    obtain ⟨p, hok, hle⟩ := h r (List.mem_cons_self r rest)
    have hnot : ¬ st.2 < p := by omega
    simp only [select_best, hok, if_neg hnot]
    exact ih st (fun x hx => h x (List.mem_cons_of_mem r hx))

/-- The selection loop returns the first route attaining the strict
maximum: routes before it are strictly worse, routes after it no better. -/
lemma select_best_first_max (res : Address → Nat × Nat) (r : List Address) (q : Nat)
    (hr : simulate_trade res r = .ok q) (rs2 : List (List Address))
    (h2 : ∀ x, x ∈ rs2 → ∃ p, simulate_trade res x = .ok p ∧ p ≤ q) :
    ∀ (rs1 : List (List Address)) (st : List Address × Nat),
      st.2 < q →
      (∀ x, x ∈ rs1 → ∃ p, simulate_trade res x = .ok p ∧ p < q) →
      select_best res (rs1 ++ r :: rs2) st = .ok (r, q) := by
  intro rs1
  induction rs1 with
  | nil =>
    intro st hst _
    simp only [List.nil_append, select_best, hr, if_pos hst]
    exact select_best_no_improvement res rs2 (r, q) h2
  | cons x rs ih =>
    intro st hst h1
    obtain ⟨p, hok, hlt⟩ := h1 x (List.mem_cons_self x rs)
    simp only [List.cons_append, select_best, hok]
    apply ih
    · by_cases hc : st.2 < p
      · rw [if_pos hc]; exact hlt
      · rw [if_neg hc]; exact hst
    · exact fun y hy => h1 y (List.mem_cons_of_mem x hy)

/-- Claim C8 (amended): ties at the maximal profit are broken by the
enumeration order of `get_all_routes`, not by hop count: when the route
list splits as `rs1 ++ r :: rs2` with every route in `rs1` strictly less
profitable than `r`, every route in `rs2` at most as profitable, and `r`'s
profit positive, `find_optimal_route` returns `r` — regardless of how many
hops `r` or any tied competitor has. -/
theorem claim_C8_first_enumerated_max_wins
    (tp : Address → Option (List Address)) (res : Address → Nat × Nat)
    (token_in token_out : Address) (rs1 rs2 : List (List Address))
    (r : List Address) (q : Nat)
    (hroutes : get_all_routes tp token_in token_out = .ok (rs1 ++ r :: rs2))
    (hq : simulate_trade res r = .ok q) (hpos : 0 < q)
    (h1 : ∀ x, x ∈ rs1 → ∃ p, simulate_trade res x = .ok p ∧ p < q)
    (h2 : ∀ x, x ∈ rs2 → ∃ p, simulate_trade res x = .ok p ∧ p ≤ q) :
    find_optimal_route tp res token_in token_out = .ok r := by
  have hsel := select_best_first_max res r q hq rs2 h2 rs1 ([], 0) hpos h1
  unfold find_optimal_route
  rw [hroutes]
  dsimp only
  rw [hsel]

/-- Claim C8, counterexample: with `tp_tie`/`res_tie` the route enumeration
yields the two-hop route `[1, 3, 2]` before the single-hop route `[1, 2]`,
both with profit exactly 1 MATIC on the fixed 1 MATIC probe, and
`find_optimal_route` returns the TWO-hop route, contradicting the claimed
fewer-hops tie-break. -/
theorem claim_C8_counterexample :
    get_all_routes tp_tie 1 2 = .ok [[1, 3, 2], [1, 2]] ∧
    simulate_trade res_tie [1, 3, 2] = .ok 1000000000000000000 ∧
    simulate_trade res_tie [1, 2] = .ok 1000000000000000000 ∧
    find_optimal_route tp_tie res_tie 1 2 = .ok [1, 3, 2] ∧
    ([1, 3, 2] : List Address) ≠ [1, 2] :=
  ⟨rfl, rfl, rfl, rfl, by decide⟩

/-- Claim C8 witness: the amended tie-break theorem instantiated on the
concrete tie scenario, returning the first enumerated route. -/
theorem claim_C8_witness : find_optimal_route tp_tie res_tie 1 2 = .ok [1, 3, 2] :=
  claim_C8_first_enumerated_max_wins tp_tie res_tie 1 2 [] [[1, 2]]
    [1, 3, 2] 1000000000000000000 rfl rfl (by decide)
    (fun x hx => absurd hx (List.not_mem_nil x))
    (fun x hx => by
      rw [List.mem_singleton] at hx
      subst hx
      exact ⟨1000000000000000000, rfl, Nat.le_refl _⟩)

end Flashwich
